import Mathlib

/-!
Verification development for the seapy objective-analysis (OA) engine
(`oa.py`) and the observation-generation batch driver (`roms/obsgen.py`).

Array values are modelled exactly: a float entry is either a finite
rational number or one of the IEEE non-finite markers NaN / +Inf / -Inf.
Machine floats never overflow in any code path under study (the facade
only copies, fills and reshapes values), so rationals are a faithful
carrier for the finite entries.

The Fortran routines `seapy.oalib.oa2d` / `seapy.oalib.oa3d` belong to
the repository but their source is not available here; they are modelled
from the specification (weight-map builder, covariance model and
per-level apply step), as marked in their doc comments.
-/

/-- Model of a single float entry of a numpy array: a finite rational,
or one of the non-finite values NaN, +Inf, -Inf that
`numpy.ma.fix_invalid` treats as invalid. -/
inductive Val where
  | num (q : ℚ)
  | nan
  | inf
  | ninf
deriving DecidableEq, Repr

instance : Inhabited Val := ⟨Val.num 0⟩

/-- Model of `numpy.isfinite` being false: NaN and the two infinities are
the invalid entries that `np.ma.fix_invalid` masks and replaces. -/
def Val.isInvalid : Val → Bool
  | .num _ => false
  | _ => true

/-- Python exceptions that the embedded code can raise. -/
inductive PyErr where
  | nameError (n : String)
  | valueError (msg : String)
  | indexError (msg : String)
deriving DecidableEq, Repr

/-- Boolean success test for an `Except` result. -/
def exceptOk {ε α : Type} : Except ε α → Bool
  | .ok _ => true
  | .error _ => false

instance {ε α : Type} [DecidableEq ε] [DecidableEq α] :
    DecidableEq (Except ε α) := fun a b =>
  match a, b with
  | .ok a, .ok b =>
      if h : a = b then .isTrue (by rw [h])
      else .isFalse (by intro hc; injection hc; exact h (by assumption))
  | .ok _, .error _ => .isFalse (by intro hc; exact Except.noConfusion hc)
  | .error _, .ok _ => .isFalse (by intro hc; exact Except.noConfusion hc)
  | .error e, .error f =>
      if h : e = f then .isTrue (by rw [h])
      else .isFalse (by intro hc; injection hc; exact h (by assumption))

/-- Model of a numpy ndarray: its shape tuple together with the flat
(C-order) data buffer.  A well-formed array has
`data.length = shape.prod`; the embedding keeps the two components
separate because `oa.py` manipulates them separately (ravel / reshape). -/
structure NDArray where
  shape : List Nat
  data : List Val
deriving DecidableEq, Repr

/-- Fill value used throughout `oa.py`: `fill_value=-999999.0`. -/
def fill_value : Val := Val.num (-999999)

/-- Buffer contents after `np.ma.fix_invalid(d, copy=False,
fill_value=-999999.0)`: each NaN/Inf entry of the underlying data buffer
is overwritten with the fill value.  Because `copy=False` is passed, the
masked array shares the caller's buffer, so this is also the caller's
array after the call. -/
def fix_invalid_data (d : List Val) : List Val :=
  d.map (fun v => if v.isInvalid then fill_value else v)

/-- Line 48 / 101 of `oa.py`: `nx = ny if nx==0 else nx`. -/
def norm_nx (nx ny : ℚ) : ℚ := if nx = 0 then ny else nx

/-- Line 49 / 102 of `oa.py`: `ny = nx if ny==0 else ny`, evaluated after
the `nx` update, so a zero `ny` inherits the already-normalized `nx`. -/
def norm_ny (nx ny : ℚ) : ℚ := if ny = 0 then norm_nx nx ny else ny

/-- Python builtin names that could be consulted after a failed
module-scope lookup; neither `ones` nor `epoch` is among them. -/
def pyBuiltinNames : List String :=
  ["print", "int", "isinstance", "super", "len", "range", "enumerate",
   "open", "getattr", "list", "map", "str", "float", "abs", "min", "max"]

/-- Name resolution for a bare Python identifier: local/enclosing scope
names, then module globals (both supplied in `scope`), then builtins;
an unbound name raises `NameError`. -/
def evalName (scope : List String) (n : String) : Except PyErr Unit :=
  if scope.contains n || pyBuiltinNames.contains n then .ok ()
  else .error (.nameError n)

/-- Names bound at module scope in `oa.py` once the module is loaded:
the two imports and the two function definitions.  The bare name `ones`
used on line 109 is not among them. -/
def oaModuleScope : List String :=
  ["print_function", "np", "seapy", "oasurf", "oavol"]

/-- Local names in scope inside the body of `oavol` when line 109 runs:
exactly its parameters (no other local assignment precedes it except the
rebindings of `nx`, `ny`, `z`, `pmap`). -/
def oavolLocalScope : List String :=
  ["x", "y", "z", "v", "xx", "yy", "zz", "pmap", "weight", "nx", "ny"]

/-- Weight map (`pmap`): either the freshly allocated all-zero array
`np.zeros([ndest, K], order="F")` that signals the Fortran routine to
build the map, or a built map holding one row per destination point.
Each row entry pairs a source-point index with the non-dimensional
squared separation of that neighbour, of which the covariance weight is
a fixed monotone function; this carries the same information as the
dense float table while staying exact. -/
inductive Pmap where
  | zeros (ndest K : Nat)
  | built (rows : List (List (Nat × ℚ)))
deriving DecidableEq, Repr

/-- Extracts a finite coordinate. -/
def valQ : Val → Option ℚ
  | .num q => some q
  | _ => none

/-- Value usable by the estimator: a finite number that is not the
`-999999.0` invalid sentinel installed by `fix_invalid`. -/
def usableVal : Val → Option ℚ
  | .num q => if q = -999999 then none else some q
  | _ => none

/-- Modelled from the spec (missing Fortran source of
`seapy.oalib.oa2d`): the covariance model maps the non-dimensional
squared separation to a weight in (0, 1], equal to 1 at zero separation
and strictly decreasing with distance.  The spec names the Gaussian
`exp(-d^2)`; this rational surrogate has the same stated properties
(range, value at 0, monotone decay) and keeps the model exact — no
settled claim depends on the numeric decay profile. -/
def covWeight (d2 : ℚ) : ℚ := 1 / (1 + d2)

/-- Modelled from the spec (missing Fortran source of
`seapy.oalib.oa2d`): the weight-map builder.  For each destination
point, every source point with finite coordinates is ranked by the
elliptically non-dimensionalized squared separation
`((dx/nx))^2 + ((dy/ny))^2` and the `K` nearest are kept, each stored
with its squared separation.  Only the geometry, the scales and `K`
enter; the value array does not. -/
def buildWeightMap (xs ys xxs yys : List Val) (nx ny : ℚ) (K : Nat) :
    List (List (Nat × ℚ)) :=
  let n := min xs.length ys.length
  (List.range xxs.length).map (fun j =>
    match valQ (xxs.getD j Val.nan), valQ (yys.getD j Val.nan) with
    | some qx, some qy =>
        (List.insertionSort (fun a b : Nat × ℚ => a.2 ≤ b.2)
          ((List.range n).filterMap (fun i =>
            match valQ (xs.getD i Val.nan), valQ (ys.getD i Val.nan) with
            | some sx, some sy =>
                some (i, ((qx - sx) / nx) ^ 2 + ((qy - sy) / ny) ^ 2)
            | _, _ => none))).take K
    | _, _ => [])

/-- Modelled from the spec (missing Fortran source): the 2-D apply step
for one destination row.  Usable neighbour values are gathered, the
remaining covariance weights renormalized to sum to one, and the
weighted estimate returned; a row with no usable neighbour yields an
invalid (NaN) estimate, which the facade then masks. -/
def applyRow (ds : List Val) (row : List (Nat × ℚ)) : Val :=
  let good := row.filterMap (fun p =>
    (usableVal (ds.getD p.1 Val.nan)).map (fun q => (q, covWeight p.2)))
  let wsum := (good.map (fun p => p.2)).sum
  if wsum = 0 then Val.nan
  else Val.num ((good.map (fun p => p.1 * p.2)).sum / wsum)

/-- Modelled from the spec (missing Fortran source of
`seapy.oalib.oa2d`): given the flattened source geometry and values, the
flattened destination geometry, the normalized scales and a weight map,
it builds the weight map if the supplied one is the fresh all-zero
allocation (and otherwise reuses it unchanged), then produces one
estimate per destination point together with an error field (discarded
by the facade, modelled trivially), and the map that was used. -/
def oa2d (xs ys ds xxs yys : List Val) (nx ny : ℚ) (pmap : Pmap) :
    (List Val × List Val) × Pmap :=
  let m := match pmap with
    | .zeros _ K => Pmap.built (buildWeightMap xs ys xxs yys nx ny K)
    | .built _ => pmap
  let rows := match m with
    | .built r => r
    | .zeros _ _ => []
  let vv := (List.range xxs.length).map (fun j => applyRow ds (rows.getD j []))
  ((vv, List.replicate xxs.length (Val.num 0)), m)

/-- Model of `np.reshape`: succeeds exactly when the buffer size matches
the product of the requested shape. -/
def reshapeE (data : List Val) (s : List Nat) : Except PyErr NDArray :=
  if data.length = s.prod then .ok ⟨s, data⟩
  else .error (.valueError "cannot reshape array")

/-- Result of a call to `oasurf`, including the caller-observable frame
effect: `d_caller` is the caller's source-value buffer after the call
(shared with the engine because `fix_invalid` is called with
`copy=False`), and `nxUsed`/`nyUsed` are the decorrelation scales handed
to the estimator after the zero-inheritance normalization. -/
structure OASurfResult where
  ret : Except PyErr (NDArray × Pmap)
  d_caller : List Val
  nxUsed : ℚ
  nyUsed : ℚ
deriving DecidableEq, Repr

/-- Tail of `oasurf` (lines 57-62): call `oa2d`, reshape the flat
estimates to the destination shape, and mask invalid outputs. -/
def oa2dFinish (xxshape : List Nat) (r : (List Val × List Val) × Pmap)
    (dC : List Val) (nx1 ny1 : ℚ) : OASurfResult :=
  match reshapeE r.1.1 xxshape with
  | .ok a =>
      { ret := .ok ({ a with data := fix_invalid_data a.data }, r.2),
        d_caller := dC, nxUsed := nx1, nyUsed := ny1 }
  | .error e =>
      { ret := .error e, d_caller := dC, nxUsed := nx1, nyUsed := ny1 }

/-- Embedding of `oasurf(x, y, d, xx, yy, pmap, weight, nx, ny)`
(oa.py lines 15-62): normalize the scales, fix invalid source values in
place, allocate a fresh all-zero weight map when none is supplied
(raising `ValueError` like `np.zeros` does when `weight` is negative),
delegate to `oa2d`, and reshape the result to `xx`'s shape. -/
def oasurf (x y d xx yy : NDArray) (pmap : Option Pmap) (weight : Int)
    (nx ny : ℚ) : OASurfResult :=
  let nx1 := norm_nx nx ny
  let ny1 := norm_ny nx ny
  let dF := fix_invalid_data d.data
  match pmap with
  | none =>
      if weight < 0 then
        { ret := .error (.valueError "negative dimensions are not allowed"),
          d_caller := dF, nxUsed := nx1, nyUsed := ny1 }
      else
        oa2dFinish xx.shape
          (oa2d x.data y.data dF xx.data yy.data nx1 ny1
            (Pmap.zeros xx.data.length weight.toNat)) dF nx1 ny1
  | some p =>
      oa2dFinish xx.shape
        (oa2d x.data y.data dF xx.data yy.data nx1 ny1 p) dF nx1 ny1

/-- Weight map returned by a completed `oasurf` call, if any. -/
def surfPmap (r : OASurfResult) : Option Pmap :=
  match r.ret with
  | .ok p => some p.2
  | .error _ => none

example : exceptOk (oasurf ⟨[1], [Val.num 0]⟩ ⟨[1], [Val.num 0]⟩
    ⟨[1], [Val.num 7]⟩ ⟨[1], [Val.num 0]⟩ ⟨[1], [Val.num 0]⟩
    (some (Pmap.built [[(0, 0)]])) 10 2 2).ret = true := by decide

/-- Buffer layout of `a.reshape(L, -1).transpose()` for a C-order buffer
`data` of length `L * P`: entry `(p, l)` of the transposed view is
element `l * P + p` of the flat buffer. -/
def reshape2T (data : List Val) (L P : Nat) : List (List Val) :=
  (List.range P).map (fun p =>
    (List.range L).map (fun l => data.getD (l * P + p) (Val.num 0)))

/-- Model of `a.reshape(a.shape[0], -1).transpose()` as applied to `z`,
`v` and `zz` in `oavol` (lines 114-117): indexing `shape[0]` of a
0-d array raises `IndexError`, and `reshape(L, -1)` raises `ValueError`
unless `L` is a nonzero divisor of the buffer size. -/
def reshape2TE (a : NDArray) : Except PyErr (List (List Val)) :=
  match a.shape with
  | [] => .error (.indexError "tuple index out of range")
  | L :: _ =>
      if L ≠ 0 ∧ L ∣ a.data.length then
        .ok (reshape2T a.data L (a.data.length / L))
      else .error (.valueError "cannot reshape array")

/-- Per-level source values: column `l` of the point-by-level table. -/
def levelVals (t : List (List Val)) (l : Nat) : List Val :=
  t.map (fun r => r.getD l Val.nan)

/-- Modelled from the spec (missing Fortran source of
`seapy.oalib.oa3d`): the apply step for one destination row at one
vertical level.  A source point contributes only when both its value
and its (normalized) depth at that level are usable; the contributing
covariance weights are renormalized and the weighted estimate returned,
or NaN when no neighbour contributes. -/
def applyRow3 (vs zs : List Val) (row : List (Nat × ℚ)) : Val :=
  let good := row.filterMap (fun p =>
    match usableVal (vs.getD p.1 Val.nan), usableVal (zs.getD p.1 Val.nan) with
    | some q, some _ => some (q, covWeight p.2)
    | _, _ => none)
  let wsum := (good.map (fun p => p.2)).sum
  if wsum = 0 then Val.nan
  else Val.num ((good.map (fun p => p.1 * p.2)).sum / wsum)

/-- Modelled from the spec (missing Fortran source of
`seapy.oalib.oa3d`): horizontal weights are taken from the 2-D weight
map (built here only if the supplied map is the fresh all-zero
allocation), and the 2-D apply step is repeated independently for every
vertical level with that level's source values and depths; the output
holds one estimate per destination point per level, arranged like the
transposed destination-depth table. -/
def oa3d (xs ys : List Val) (zT vT : List (List Val)) (xxs yys : List Val)
    (zzT : List (List Val)) (nx ny : ℚ) (pmap : Pmap) :
    (List (List Val) × List Val) × Pmap :=
  let m := match pmap with
    | .zeros _ K => Pmap.built (buildWeightMap xs ys xxs yys nx ny K)
    | .built _ => pmap
  let rows := match m with
    | .built r => r
    | .zeros _ _ => []
  let P := zzT.length
  let L := (zzT.headD []).length
  let out := (List.range P).map (fun p =>
    (List.range L).map (fun l =>
      applyRow3 (levelVals vT l) (levelVals zT l) (rows.getD p [])))
  ((out, List.replicate P (Val.num 0)), m)

/-- Flat buffer of `vv.transpose()` for a point-by-level table `m`:
levels become the leading axis, so level-major order. -/
def transFlat (m : List (List Val)) : List Val :=
  List.flatten ((List.range ((m.headD []).length)).map (fun l =>
    m.map (fun row => row.getD l (Val.num 0))))

/-- Result of a call to `oavol`.  `z_caller` is the caller's source
depth buffer after the call (shared because `fix_invalid` is called
with `copy=False`); `za`/`va` record the depth and value tables as they
are handed to `oa3d`, when execution reaches that call; `nxUsed`/`nyUsed`
are the normalized decorrelation scales. -/
structure OAVolResult where
  ret : Except PyErr (NDArray × Pmap)
  z_caller : List Val
  nxUsed : ℚ
  nyUsed : ℚ
  za : Option (List (List Val))
  va : Option (List (List Val))
deriving DecidableEq, Repr

/-- Last step of `oavol` (lines 121-122): transpose the per-point
per-level output of `oa3d` back, reshape it to `zz`'s shape and mask
invalid outputs. -/
def oavolFinish (zzshape : List Nat) (r : (List (List Val) × List Val) × Pmap)
    (zF : List Val) (nx1 ny1 : ℚ) (zA vA : List (List Val)) : OAVolResult :=
  match reshapeE (transFlat r.1.1) zzshape with
  | .error e =>
      { ret := .error e, z_caller := zF, nxUsed := nx1, nyUsed := ny1,
        za := some zA, va := some vA }
  | .ok a =>
      { ret := .ok ({ a with data := fix_invalid_data a.data }, r.2),
        z_caller := zF, nxUsed := nx1, nyUsed := ny1,
        za := some zA, va := some vA }

/-- Tail of `oavol` (lines 113-122): reshape-and-transpose the source
depth, source value and destination depth arrays, call `oa3d`, then
transpose back, reshape to `zz`'s shape and mask invalid outputs. -/
def oavolMain (x y : NDArray) (zF : List Val) (zshape : List Nat)
    (v xx yy zz : NDArray) (nx1 ny1 : ℚ) (p : Pmap) : OAVolResult :=
  match reshape2TE { shape := zshape, data := zF } with
  | .error e =>
      { ret := .error e, z_caller := zF, nxUsed := nx1, nyUsed := ny1,
        za := none, va := none }
  | .ok zA =>
    match reshape2TE v with
    | .error e =>
        { ret := .error e, z_caller := zF, nxUsed := nx1, nyUsed := ny1,
          za := some zA, va := none }
    | .ok vA =>
      match reshape2TE zz with
      | .error e =>
          { ret := .error e, z_caller := zF, nxUsed := nx1, nyUsed := ny1,
            za := some zA, va := some vA }
      | .ok zzA =>
          oavolFinish zz.shape
            (oa3d x.data y.data zA vA xx.data yy.data zzA nx1 ny1 p)
            zF nx1 ny1 zA vA

/-- Embedding of `oavol(x, y, z, v, xx, yy, zz, pmap, weight, nx, ny)`
(oa.py lines 64-122): normalize the scales, fix invalid source depths in
place, and when no weight map is supplied allocate the fresh all-zero
map (raising `ValueError` like `np.zeros` does for a negative `weight`)
and then evaluate the bare name `ones` on line 109 — which is unbound in
`oa.py` (only `np` and `seapy` are imported), so the build-the-map
branch raises `NameError` before `oa2d` is ever reached.  The `.ok`
continuation of that lookup embeds what line 109-110 would do with a
unit-valued field; it is unreachable.  With a supplied map, control
proceeds to the `oa3d` call. -/
def oavol (x y z v xx yy zz : NDArray) (pmap : Option Pmap) (weight : Int)
    (nx ny : ℚ) : OAVolResult :=
  let nx1 := norm_nx nx ny
  let ny1 := norm_ny nx ny
  let zF := fix_invalid_data z.data
  match pmap with
  | none =>
      if weight < 0 then
        { ret := .error (.valueError "negative dimensions are not allowed"),
          z_caller := zF, nxUsed := nx1, nyUsed := ny1, za := none, va := none }
      else
        match evalName (oavolLocalScope ++ oaModuleScope) "ones" with
        | .error e =>
            { ret := .error e, z_caller := zF, nxUsed := nx1, nyUsed := ny1,
              za := none, va := none }
        | .ok _ =>
            let r0 := oa2d x.data y.data
              (List.replicate x.data.length (Val.num 1)) xx.data yy.data
              nx1 ny1 (Pmap.zeros xx.data.length weight.toNat)
            oavolMain x y zF z.shape v xx yy zz nx1 ny1 r0.2
  | some p => oavolMain x y zF z.shape v xx yy zz nx1 ny1 p

example : exceptOk (oavol ⟨[1], [Val.num 0]⟩ ⟨[1], [Val.num 0]⟩
    ⟨[1, 1], [Val.num (-5)]⟩ ⟨[1, 1], [Val.num 3]⟩ ⟨[1], [Val.num 0]⟩
    ⟨[1], [Val.num 0]⟩ ⟨[1, 1], [Val.num (-2)]⟩
    (some (Pmap.built [[(0, 0)]])) 10 2 2).ret = true := by decide

example : (oavol ⟨[1], [Val.num 0]⟩ ⟨[1], [Val.num 0]⟩
    ⟨[1, 1], [Val.num (-5)]⟩ ⟨[1, 1], [Val.num 3]⟩ ⟨[1], [Val.num 0]⟩
    ⟨[1], [Val.num 0]⟩ ⟨[1, 1], [Val.num (-2)]⟩
    none 10 2 2).ret = .error (.nameError "ones") := by decide

/-! Embedding of `src/roms/obsgen.py`: the `obsgen` base class, its six
instrument subclasses, and the `batch_files` driver. -/

/-- Opaque handle for the `seapy.model.grid` object held by `obsgen`;
its internals never matter to the settled claims. -/
structure ModelGrid where
  gid : Nat
deriving DecidableEq, Repr

/-- Modelled from the spec: `seapy.convolve_mask` is part of the
excluded quality-control/masking collaborator layer (spec section 1
places it out of scope).  Only its totality matters to the claims, so
it is modelled as a total function on arrays. -/
def convolve_mask (a : NDArray) (_ksize : Nat) : NDArray := a

/-- Attributes set by `obsgen.__init__` (lines 24-48): the grid, the
time step and the reference epoch (a time, modelled as rational days). -/
structure ObsgenBase where
  grid : ModelGrid
  dt : ℚ
  epoch : ℚ
deriving DecidableEq, Repr

/-- Embedding of `obsgen.__init__(grid, dt, reftime)`: the base class
correctly stores its `reftime` parameter as `self.epoch`. -/
def obsgen_init (grid : ModelGrid) (dt : ℚ) (reftime : ℚ) : ObsgenBase :=
  { grid := grid, dt := dt, epoch := reftime }

/-- Names bound at module scope in `roms/obsgen.py` once the module is
loaded: the import targets and the seven class statements.  No
module-level binding of `epoch` exists. -/
def obsgenModuleScope : List String :=
  ["print_function", "np", "netCDF4", "seapy", "datetime", "warn",
   "obsgen", "aquarius_sss", "argo_ctd", "aviso_sla_map", "ostia_sst_map",
   "seaglider_profile", "tao_mooring"]

/-- Attributes of `aquarius_sss` after a (hypothetically) successful
construction. -/
structure AquariusSSS where
  base : ObsgenBase
  salt_limits : ℚ × ℚ
  salt_error : ℚ
deriving DecidableEq, Repr

/-- Embedding of `aquarius_sss.__init__` (lines 117-124): after the
default-limit bookkeeping, line 124 executes
`super().__init__(grid, dt, epoch)`; evaluating the bare name `epoch`
consults the local scope (exactly the parameters), the module scope and
the builtins, none of which bind it.  The `.ok` continuation (which
would store the attributes) is unreachable. -/
def aquarius_sss_init (grid : ModelGrid) (dt : ℚ) (reftime : ℚ)
    (salt_limits : Option (ℚ × ℚ)) (salt_error : ℚ) :
    Except PyErr AquariusSSS :=
  let sl := match salt_limits with
    | none => ((10 : ℚ), (36 : ℚ))
    | some l => l
  match evalName (["self", "grid", "dt", "reftime", "salt_limits",
      "salt_error"] ++ obsgenModuleScope) "epoch" with
  | .error e => .error e
  | .ok _ =>
      .ok { base := obsgen_init grid dt reftime, salt_limits := sl,
            salt_error := salt_error }

/-- Attributes of `argo_ctd` after a (hypothetically) successful
construction. -/
structure ArgoCTD where
  base : ObsgenBase
  temp_limits : ℚ × ℚ
  salt_limits : ℚ × ℚ
  temp_error : ℚ
  salt_error : ℚ
deriving DecidableEq, Repr

/-- Embedding of `argo_ctd.__init__` (lines 169-182): line 182 passes
the unbound name `epoch` to `super().__init__`, raising `NameError`. -/
def argo_ctd_init (grid : ModelGrid) (dt : ℚ) (reftime : ℚ)
    (temp_limits salt_limits : Option (ℚ × ℚ)) (temp_error salt_error : ℚ) :
    Except PyErr ArgoCTD :=
  let tl := match temp_limits with
    | none => ((5 : ℚ), (30 : ℚ))
    | some l => l
  let sl := match salt_limits with
    | none => ((10 : ℚ), (35.5 : ℚ))
    | some l => l
  match evalName (["self", "grid", "dt", "reftime", "temp_limits",
      "salt_limits", "temp_error", "salt_error"] ++ obsgenModuleScope)
      "epoch" with
  | .error e => .error e
  | .ok _ =>
      .ok { base := obsgen_init grid dt reftime, temp_limits := tl,
            salt_limits := sl, temp_error := temp_error,
            salt_error := salt_error }

/-- Attributes of `aviso_sla_map` after a (hypothetically) successful
construction. -/
structure AvisoSLAMap where
  base : ObsgenBase
  ssh_mean : Option NDArray
  ssh_error : ℚ
deriving DecidableEq, Repr

/-- Embedding of `aviso_sla_map.__init__` (lines 270-277): a supplied
mean sea-surface height is smoothed by the external `convolve_mask`
first, then line 277 passes the unbound name `epoch` to
`super().__init__`, raising `NameError`. -/
def aviso_sla_map_init (grid : ModelGrid) (dt : ℚ) (reftime : ℚ)
    (ssh_mean : Option NDArray) (ssh_error : ℚ) :
    Except PyErr AvisoSLAMap :=
  let sm := match ssh_mean with
    | some m => some (convolve_mask m 5)
    | none => none
  match evalName (["self", "grid", "dt", "reftime", "ssh_mean",
      "ssh_error"] ++ obsgenModuleScope) "epoch" with
  | .error e => .error e
  | .ok _ =>
      .ok { base := obsgen_init grid dt reftime, ssh_mean := sm,
            ssh_error := ssh_error }

/-- Attributes of `ostia_sst_map` after a (hypothetically) successful
construction. -/
structure OstiaSSTMap where
  base : ObsgenBase
  temp_limits : ℚ × ℚ
  temp_error : ℚ
deriving DecidableEq, Repr

/-- Embedding of `ostia_sst_map.__init__` (lines 317-324): line 324
passes the unbound name `epoch` to `super().__init__`, raising
`NameError`. -/
def ostia_sst_map_init (grid : ModelGrid) (dt : ℚ) (reftime : ℚ)
    (temp_error : ℚ) (temp_limits : Option (ℚ × ℚ)) :
    Except PyErr OstiaSSTMap :=
  let tl := match temp_limits with
    | none => ((2 : ℚ), (35 : ℚ))
    | some l => l
  match evalName (["self", "grid", "dt", "reftime", "temp_error",
      "temp_limits"] ++ obsgenModuleScope) "epoch" with
  | .error e => .error e
  | .ok _ =>
      .ok { base := obsgen_init grid dt reftime, temp_limits := tl,
            temp_error := temp_error }

/-- Attributes of `seaglider_profile` after a (hypothetically)
successful construction. -/
structure SeagliderProfile where
  base : ObsgenBase
  temp_limits : ℚ × ℚ
  salt_limits : ℚ × ℚ
  depth_limit : ℚ
  temp_error : ℚ
  salt_error : ℚ
deriving DecidableEq, Repr

/-- Embedding of `seaglider_profile.__init__` (lines 360-374): line 374
passes the unbound name `epoch` to `super().__init__`, raising
`NameError`. -/
def seaglider_profile_init (grid : ModelGrid) (dt : ℚ) (reftime : ℚ)
    (temp_limits salt_limits : Option (ℚ × ℚ)) (depth_limit : ℚ)
    (temp_error salt_error : ℚ) : Except PyErr SeagliderProfile :=
  let tl := match temp_limits with
    | none => ((5 : ℚ), (30 : ℚ))
    | some l => l
  let sl := match salt_limits with
    | none => ((31 : ℚ), (35.5 : ℚ))
    | some l => l
  match evalName (["self", "grid", "dt", "reftime", "temp_limits",
      "salt_limits", "depth_limit", "temp_error", "salt_error"] ++
      obsgenModuleScope) "epoch" with
  | .error e => .error e
  | .ok _ =>
      .ok { base := obsgen_init grid dt reftime, temp_limits := tl,
            salt_limits := sl, depth_limit := depth_limit,
            temp_error := temp_error, salt_error := salt_error }

/-- Attributes of `tao_mooring` after a (hypothetically) successful
construction. -/
structure TaoMooring where
  base : ObsgenBase
  temp_limits : ℚ × ℚ
  salt_limits : ℚ × ℚ
  u_limits : ℚ × ℚ
  v_limits : ℚ × ℚ
  depth_limit : ℚ
  temp_error : ℚ
  salt_error : ℚ
  u_error : ℚ
  v_error : ℚ
deriving DecidableEq, Repr

/-- Embedding of `tao_mooring.__init__` (lines 447-472): line 472 passes
the unbound name `epoch` to `super().__init__`, raising `NameError`. -/
def tao_mooring_init (grid : ModelGrid) (dt : ℚ) (reftime : ℚ)
    (temp_limits salt_limits u_limits v_limits : Option (ℚ × ℚ))
    (depth_limit : ℚ) (temp_error salt_error u_error v_error : ℚ) :
    Except PyErr TaoMooring :=
  let tl := match temp_limits with
    | none => ((5 : ℚ), (30 : ℚ))
    | some l => l
  let sl := match salt_limits with
    | none => ((31 : ℚ), (35.5 : ℚ))
    | some l => l
  let ul := match u_limits with
    | none => ((-3 : ℚ), (3 : ℚ))
    | some l => l
  let vl := match v_limits with
    | none => ((-3 : ℚ), (3 : ℚ))
    | some l => l
  match evalName (["self", "grid", "dt", "reftime", "temp_limits",
      "salt_limits", "u_limits", "v_limits", "depth_limit", "temp_error",
      "salt_error", "u_error", "v_error"] ++ obsgenModuleScope) "epoch" with
  | .error e => .error e
  | .ok _ =>
      .ok { base := obsgen_init grid dt reftime, temp_limits := tl,
            salt_limits := sl, u_limits := ul, v_limits := vl,
            depth_limit := depth_limit, temp_error := temp_error,
            salt_error := salt_error, u_error := u_error, v_error := v_error }

/-! Embedding of `obsgen.batch_files` (lines 70-109). -/

/-- Observation structure produced by `convert_file`: only the `time`
vector is consulted by `batch_files` (via `obs.time[0]`). -/
structure ObsRec where
  time : List Int
deriving DecidableEq, Repr

/-- The `out_files` argument: either a single template string (whose
hash marks are replaced by the start time) or a list indexed by the
position of the input file. -/
inductive OutFiles where
  | template (s : String)
  | list (l : List String)

/-- Python list indexing at a non-negative position: `IndexError` when
out of range. -/
def pyGet {α : Type} (l : List α) (n : Nat) : Except PyErr α :=
  match l.get? n with
  | some a => .ok a
  | none => .error (.indexError "list index out of range")

/-- Left-pads a digit string with zeros to the given width. -/
def leftPad0 (w : Nat) (s : String) : String :=
  if s.length ≥ w then s
  else String.mk (List.replicate (w - s.length) '0') ++ s

/-- The 05d integer format used on line 103: zero-padded to overall
width five, with the sign counted in the width. -/
def format05 (i : Int) : String :=
  if i < 0 then "-" ++ leftPad0 4 (toString (-i)) else leftPad0 5 (toString i)

/-- The warning emitted on line 108 for a file that failed. -/
def warnMsg (f : String) : String :=
  "WARNING: " ++ f ++ " cannot be processed."

/-- Body of the `try` block of `batch_files` (lines 98-106) for the
`n`-th input file `f`: convert the file (an arbitrary fallible
conversion, supplied by the subclass), skip silently when the converter
returns `None`, otherwise write the result to the templated or indexed
output name (`obs.time[0]` and `out_files[n]` can both raise
`IndexError`; the writer itself may raise). -/
def batch_body (conv : String → Except PyErr (Option ObsRec))
    (wr : ObsRec → String → Except PyErr Unit) (outf : OutFiles)
    (n : Nat) (f : String) : Except PyErr Unit :=
  match conv f with
  | .error e => .error e
  | .ok none => .ok ()
  | .ok (some obs) =>
      match outf with
      | .template t =>
          match pyGet obs.time 0 with
          | .error e => .error e
          | .ok t0 => wr obs (t.replace "#" (format05 t0))
      | .list l =>
          match pyGet l n with
          | .error e => .error e
          | .ok o => wr obs o

/-- The `for n, file in enumerate(in_files)` loop of `batch_files`: each
iteration runs the `try` body and, on any exception, appends the
warning for that file and continues with the remaining files; the loop
itself never re-raises. -/
def batch_files_go (conv : String → Except PyErr (Option ObsRec))
    (wr : ObsRec → String → Except PyErr Unit) (outf : OutFiles)
    (n : Nat) : List String → List String
  | [] => []
  | f :: rest =>
      match batch_body conv wr outf n f with
      | .ok _ => batch_files_go conv wr outf (n + 1) rest
      | .error _ => warnMsg f :: batch_files_go conv wr outf (n + 1) rest

/-- Embedding of `obsgen.batch_files(in_files, out_files)`: processes
every input file in order, returning the warnings issued; the total
return type records that no per-file exception propagates to the
caller. -/
def batch_files (conv : String → Except PyErr (Option ObsRec))
    (wr : ObsRec → String → Except PyErr Unit) (outf : OutFiles)
    (in_files : List String) : List String :=
  batch_files_go conv wr outf 0 in_files

/-! Helper lemmas about the embedded operations. -/

theorem reshapeE_ok_shape (data : List Val) (s : List Nat) (a : NDArray)
    (h : reshapeE data s = .ok a) : a.shape = s := by
  unfold reshapeE at h
  split at h
  · cases h; rfl
  · cases h

theorem oa2d_vv_length (xs ys ds xxs yys : List Val) (nx ny : ℚ) (p : Pmap) :
    ((oa2d xs ys ds xxs yys nx ny p).1.1).length = xxs.length := by
  simp [oa2d]

theorem oa2d_pmap_value_blind (xs ys ds ds2 xxs yys : List Val) (nx ny : ℚ)
    (p : Pmap) :
    (oa2d xs ys ds xxs yys nx ny p).2 = (oa2d xs ys ds2 xxs yys nx ny p).2 := by
  cases p <;> rfl

theorem oa2dFinish_ret_shape (s : List Nat) (r : (List Val × List Val) × Pmap)
    (dC : List Val) (a b : ℚ) (rr : NDArray) (q : Pmap)
    (h : (oa2dFinish s r dC a b).ret = .ok (rr, q)) : rr.shape = s := by
  unfold oa2dFinish at h
  split at h
  · rename_i arr heq
    cases h
    exact reshapeE_ok_shape r.1.1 s arr heq
  · cases h

theorem oa2dFinish_d_caller (s : List Nat) (r : (List Val × List Val) × Pmap)
    (dC : List Val) (a b : ℚ) : (oa2dFinish s r dC a b).d_caller = dC := by
  unfold oa2dFinish
  split <;> rfl

theorem oa2dFinish_scales (s : List Nat) (r : (List Val × List Val) × Pmap)
    (dC : List Val) (a b : ℚ) :
    (oa2dFinish s r dC a b).nxUsed = a ∧ (oa2dFinish s r dC a b).nyUsed = b := by
  unfold oa2dFinish
  constructor <;> (split <;> rfl)

theorem surfPmap_oa2dFinish (s : List Nat) (r : (List Val × List Val) × Pmap)
    (dC : List Val) (a b : ℚ) :
    surfPmap (oa2dFinish s r dC a b) =
      if r.1.1.length = s.prod then some r.2 else none := by
  by_cases hc : r.1.1.length = s.prod <;>
    simp [oa2dFinish, reshapeE, hc, surfPmap]

theorem reshape2TE_ok (a : NDArray) (m : List (List Val))
    (h : reshape2TE a = .ok m) :
    ∃ L t, a.shape = L :: t ∧ L ≠ 0 ∧ L ∣ a.data.length ∧
      m = reshape2T a.data L (a.data.length / L) := by
  unfold reshape2TE at h
  split at h
  · cases h
  · rename_i L t heq
    split at h
    · rename_i hc
      cases h
      exact ⟨L, t, heq, hc.1, hc.2, rfl⟩
    · cases h

theorem fix_invalid_length (l : List Val) :
    (fix_invalid_data l).length = l.length := by
  simp [fix_invalid_data]

theorem reshape2T_length (data : List Val) (L P : Nat) :
    (reshape2T data L P).length = P := by
  simp [reshape2T]

theorem range_map_headD_length {α : Type} (P L : Nat) (f : Nat → Nat → α)
    (hP : 0 < P) :
    (((List.range P).map (fun p => (List.range L).map (f p))).headD []).length
      = L := by
  cases P with
  | zero => exact absurd hP (Nat.lt_irrefl 0)
  | succ n =>
      rw [List.range_succ_eq_map]
      simp

theorem reshape2T_headD_length (data : List Val) (L P : Nat) (hP : 0 < P) :
    ((reshape2T data L P).headD []).length = L := by
  unfold reshape2T
  exact range_map_headD_length P L
    (fun p l => data.getD (l * P + p) (Val.num 0)) hP

theorem transFlat_length (m : List (List Val)) :
    (transFlat m).length = (m.headD []).length * m.length := by
  unfold transFlat
  rw [List.length_flatten, List.map_map]
  have h : (List.range ((m.headD []).length)).map
      (List.length ∘ fun l => m.map (fun row => row.getD l (Val.num 0))) =
      (List.range ((m.headD []).length)).map (fun _ => m.length) :=
    List.map_congr_left (fun a _ => by simp)
  rw [h, List.map_const', List.sum_replicate, List.length_range, smul_eq_mul]

theorem reshape2TE_ok_of (a : NDArray) (L : Nat) (t : List Nat)
    (h : a.shape = L :: t) (hL : L ≠ 0) (hd : L ∣ a.data.length) :
    reshape2TE a = .ok (reshape2T a.data L (a.data.length / L)) := by
  unfold reshape2TE
  rw [h]
  simp [hL, hd]

theorem oa3d_vv_dims (xs ys : List Val) (zT vT : List (List Val))
    (xxs yys : List Val) (zzT : List (List Val)) (nx ny : ℚ) (pmap : Pmap) :
    ((oa3d xs ys zT vT xxs yys zzT nx ny pmap).1.1).length = zzT.length ∧
    (0 < zzT.length →
      (((oa3d xs ys zT vT xxs yys zzT nx ny pmap).1.1).headD []).length =
        (zzT.headD []).length) := by
  constructor
  · simp [oa3d]
  · intro hP
    simp only [oa3d]
    exact range_map_headD_length _ _ _ hP

theorem oa3d_transFlat_length (xs ys : List Val) (zT vT : List (List Val))
    (xxs yys : List Val) (data : List Val) (L : Nat) (nx ny : ℚ) (pmap : Pmap)
    (hL : L ∣ data.length) :
    (transFlat ((oa3d xs ys zT vT xxs yys
        (reshape2T data L (data.length / L)) nx ny pmap).1.1)).length =
      data.length := by
  rw [transFlat_length]
  rw [(oa3d_vv_dims xs ys zT vT xxs yys
    (reshape2T data L (data.length / L)) nx ny pmap).1]
  rw [reshape2T_length]
  rcases Nat.eq_zero_or_pos (data.length / L) with hP0 | hPpos
  · rw [hP0, Nat.mul_zero]
    have hm := Nat.mul_div_cancel' hL
    rw [hP0, Nat.mul_zero] at hm
    omega
  · rw [(oa3d_vv_dims xs ys zT vT xxs yys
      (reshape2T data L (data.length / L)) nx ny pmap).2
      (by rw [reshape2T_length]; exact hPpos)]
    rw [reshape2T_headD_length data L _ hPpos]
    exact Nat.mul_div_cancel' hL

theorem oavolFinish_fields (zzshape : List Nat)
    (r : (List (List Val) × List Val) × Pmap) (zF : List Val) (a b : ℚ)
    (zA vA : List (List Val)) :
    (oavolFinish zzshape r zF a b zA vA).z_caller = zF ∧
    (oavolFinish zzshape r zF a b zA vA).nxUsed = a ∧
    (oavolFinish zzshape r zF a b zA vA).nyUsed = b ∧
    (oavolFinish zzshape r zF a b zA vA).za = some zA ∧
    (oavolFinish zzshape r zF a b zA vA).va = some vA := by
  unfold oavolFinish
  refine ⟨?_, ?_, ?_, ?_, ?_⟩ <;> (split <;> rfl)

theorem oavolFinish_ret_shape (zzshape : List Nat)
    (r : (List (List Val) × List Val) × Pmap) (zF : List Val) (a b : ℚ)
    (zA vA : List (List Val)) (rr : NDArray) (q : Pmap)
    (h : (oavolFinish zzshape r zF a b zA vA).ret = .ok (rr, q)) :
    rr.shape = zzshape := by
  unfold oavolFinish at h
  split at h
  · cases h
  · rename_i arr heq
    cases h
    exact reshapeE_ok_shape _ zzshape arr heq

theorem oavolFinish_ok (zzshape : List Nat)
    (r : (List (List Val) × List Val) × Pmap) (zF : List Val) (a b : ℚ)
    (zA vA : List (List Val))
    (hlen : (transFlat r.1.1).length = zzshape.prod) :
    exceptOk (oavolFinish zzshape r zF a b zA vA).ret = true := by
  simp [oavolFinish, reshapeE, hlen, exceptOk]

theorem oavolMain_z_caller (x y : NDArray) (zF : List Val) (zs : List Nat)
    (v xx yy zz : NDArray) (a b : ℚ) (p : Pmap) :
    (oavolMain x y zF zs v xx yy zz a b p).z_caller = zF := by
  unfold oavolMain
  split
  · rfl
  · split
    · rfl
    · split
      · rfl
      · exact (oavolFinish_fields _ _ _ _ _ _ _).1

theorem oavolMain_scales (x y : NDArray) (zF : List Val) (zs : List Nat)
    (v xx yy zz : NDArray) (a b : ℚ) (p : Pmap) :
    (oavolMain x y zF zs v xx yy zz a b p).nxUsed = a ∧
    (oavolMain x y zF zs v xx yy zz a b p).nyUsed = b := by
  unfold oavolMain
  constructor <;>
    (split
     · rfl
     · split
       · rfl
       · split
         · rfl
         · first
           | exact (oavolFinish_fields _ _ _ _ _ _ _).2.1
           | exact (oavolFinish_fields _ _ _ _ _ _ _).2.2.1)

theorem oavolMain_ret_shape (x y : NDArray) (zF : List Val) (zs : List Nat)
    (v xx yy zz : NDArray) (a b : ℚ) (p : Pmap) (rr : NDArray) (q : Pmap)
    (h : (oavolMain x y zF zs v xx yy zz a b p).ret = .ok (rr, q)) :
    rr.shape = zz.shape := by
  unfold oavolMain at h
  split at h
  · cases h
  · split at h
    · cases h
    · split at h
      · cases h
      · exact oavolFinish_ret_shape _ _ _ _ _ _ _ rr q h

theorem oavolMain_za (x y : NDArray) (zF : List Val) (zs : List Nat)
    (v xx yy zz : NDArray) (a b : ℚ) (p : Pmap) (m : List (List Val))
    (h : (oavolMain x y zF zs v xx yy zz a b p).za = some m) :
    ∃ L t, zs = L :: t ∧ L ≠ 0 ∧ L ∣ zF.length ∧
      m = reshape2T zF L (zF.length / L) := by
  unfold oavolMain at h
  split at h
  · cases h
  · rename_i zA heqz
    have hz := reshape2TE_ok _ zA heqz
    split at h
    · cases h
      exact hz
    · split at h
      · cases h
        exact hz
      · rw [(oavolFinish_fields _ _ _ _ _ _ _).2.2.2.1] at h
        cases h
        exact hz

theorem oavolMain_va (x y : NDArray) (zF : List Val) (zs : List Nat)
    (v xx yy zz : NDArray) (a b : ℚ) (p : Pmap) (m : List (List Val))
    (h : (oavolMain x y zF zs v xx yy zz a b p).va = some m) :
    ∃ L t, v.shape = L :: t ∧ L ≠ 0 ∧ L ∣ v.data.length ∧
      m = reshape2T v.data L (v.data.length / L) := by
  unfold oavolMain at h
  split at h
  · cases h
  · split at h
    · cases h
    · rename_i vA heqv
      have hv := reshape2TE_ok _ vA heqv
      split at h
      · cases h
        exact hv
      · rw [(oavolFinish_fields _ _ _ _ _ _ _).2.2.2.2] at h
        cases h
        exact hv

theorem fix_invalid_getD (l : List Val) (i : Nat) :
    ((fix_invalid_data l).getD i (Val.num 0)).isInvalid = false := by
  induction l generalizing i with
  | nil => cases i <;> rfl
  | cons a t ih =>
      cases i with
      | zero => cases a <;> rfl
      | succ n =>
          simpa [fix_invalid_data] using ih n

theorem fix_invalid_of_valid (l : List Val)
    (h : ∀ a ∈ l, a.isInvalid = false) : fix_invalid_data l = l := by
  have hm : l.map (fun v => if v.isInvalid then fill_value else v) = l.map id :=
    List.map_congr_left (fun a ha => by simp [h a ha])
  unfold fix_invalid_data
  rw [hm, List.map_id]

theorem norm_nx_pos (nx ny : ℚ) (hx : 0 ≤ nx) (hy : 0 ≤ ny)
    (hne : nx ≠ 0 ∨ ny ≠ 0) : 0 < norm_nx nx ny := by
  unfold norm_nx
  split
  · rename_i h0
    cases hne with
    | inl h1 => exact absurd h0 h1
    | inr h2 => exact lt_of_le_of_ne hy (Ne.symm h2)
  · rename_i h0
    exact lt_of_le_of_ne hx (Ne.symm h0)

theorem norm_ny_pos (nx ny : ℚ) (hx : 0 ≤ nx) (hy : 0 ≤ ny)
    (hne : nx ≠ 0 ∨ ny ≠ 0) : 0 < norm_ny nx ny := by
  unfold norm_ny
  split
  · exact norm_nx_pos nx ny hx hy hne
  · rename_i h0
    exact lt_of_le_of_ne hy (Ne.symm h0)

theorem ones_unbound :
    evalName (oavolLocalScope ++ oaModuleScope) "ones" =
      .error (.nameError "ones") := rfl

theorem oasurf_d_caller (x y d xx yy : NDArray) (pm : Option Pmap) (w : Int)
    (nx ny : ℚ) :
    (oasurf x y d xx yy pm w nx ny).d_caller = fix_invalid_data d.data := by
  cases pm with
  | none =>
      by_cases hw : w < 0 <;> simp [oasurf, hw, oa2dFinish_d_caller]
  | some p => simp [oasurf, oa2dFinish_d_caller]

theorem oasurf_scales (x y d xx yy : NDArray) (pm : Option Pmap) (w : Int)
    (nx ny : ℚ) :
    (oasurf x y d xx yy pm w nx ny).nxUsed = norm_nx nx ny ∧
    (oasurf x y d xx yy pm w nx ny).nyUsed = norm_ny nx ny := by
  cases pm with
  | none =>
      by_cases hw : w < 0 <;> simp [oasurf, hw, oa2dFinish_scales]
  | some p => simp [oasurf, oa2dFinish_scales]

theorem oavol_z_caller (x y z v xx yy zz : NDArray) (pm : Option Pmap)
    (w : Int) (nx ny : ℚ) :
    (oavol x y z v xx yy zz pm w nx ny).z_caller = fix_invalid_data z.data := by
  cases pm with
  | none =>
      by_cases hw : w < 0 <;>
        simp [oavol, hw, ones_unbound]
  | some p => simp [oavol, oavolMain_z_caller]

theorem oavol_scales (x y z v xx yy zz : NDArray) (pm : Option Pmap)
    (w : Int) (nx ny : ℚ) :
    (oavol x y z v xx yy zz pm w nx ny).nxUsed = norm_nx nx ny ∧
    (oavol x y z v xx yy zz pm w nx ny).nyUsed = norm_ny nx ny := by
  cases pm with
  | none =>
      by_cases hw : w < 0 <;>
        simp [oavol, hw, ones_unbound]
  | some p => simp [oavol, oavolMain_scales]

theorem batch_go_warn (conv : String → Except PyErr (Option ObsRec))
    (wr : ObsRec → String → Except PyErr Unit) (outf : OutFiles) :
    ∀ (fs : List String) (k n : Nat) (h : n < fs.length),
      exceptOk (batch_body conv wr outf (k + n) (fs.get ⟨n, h⟩)) = false →
        warnMsg (fs.get ⟨n, h⟩) ∈ batch_files_go conv wr outf k fs := by
  intro fs
  induction fs with
  | nil => intro k n h; exact absurd h (Nat.not_lt_zero n)
  | cons f t ih =>
      intro k n h hfail
      cases n with
      | zero =>
          have hfail2 : exceptOk (batch_body conv wr outf k f) = false := hfail
          have hgoal : warnMsg ((f :: t).get ⟨0, h⟩) = warnMsg f := rfl
          rw [hgoal]
          unfold batch_files_go
          cases hb : batch_body conv wr outf k f with
          | ok u =>
              rw [hb] at hfail2
              exact absurd hfail2 (by simp [exceptOk])
          | error e => exact List.mem_cons_self _ _
      | succ n =>
          have hn : n < t.length := Nat.lt_of_succ_lt_succ h
          have hidx : (k + 1) + n = k + (n + 1) := by omega
          have hmem : warnMsg (t.get ⟨n, hn⟩) ∈
              batch_files_go conv wr outf (k + 1) t := by
            apply ih (k + 1) n hn
            rw [hidx]
            exact hfail
          unfold batch_files_go
          cases hb : batch_body conv wr outf k f with
          | ok u => exact hmem
          | error e => exact List.mem_cons_of_mem _ hmem

theorem batch_go_warn_src (conv : String → Except PyErr (Option ObsRec))
    (wr : ObsRec → String → Except PyErr Unit) (outf : OutFiles) :
    ∀ (fs : List String) (k : Nat) (s : String),
      s ∈ batch_files_go conv wr outf k fs → ∃ f ∈ fs, s = warnMsg f := by
  intro fs
  induction fs with
  | nil => intro k s h; cases h
  | cons f t ih =>
      intro k s h
      unfold batch_files_go at h
      revert h
      cases hb : batch_body conv wr outf k f with
      | ok u =>
          intro h
          obtain ⟨g, hg, hs⟩ := ih (k + 1) s h
          exact ⟨g, List.mem_cons_of_mem _ hg, hs⟩
      | error e =>
          intro h
          cases h with
          | head => exact ⟨f, List.mem_cons_self _ _, rfl⟩
          | tail _ h =>
              obtain ⟨g, hg, hs⟩ := ih (k + 1) s h
              exact ⟨g, List.mem_cons_of_mem _ hg, hs⟩

/-! The claims. -/

/-- C1: the claim says that `oavol` called without a weight map builds
one by running the 2-D builder over the (x, y) geometry with a synthetic
unit field and then produces the per-level estimates.  The code cannot:
line 109 of `oa.py` calls the bare name `ones`, which is unbound in the
module (only `np` and `seapy` are imported), so every `oavol` call with
`pmap=None` (and a non-negative neighbour count, which `np.zeros` admits)
raises `NameError` instead of building the map.  This theorem evaluates
the code on that failing configuration. -/
theorem C1_oavol_pmap_none_nameerror (x y z v xx yy zz : NDArray) (w : Int)
    (nx ny : ℚ) (hw : 0 ≤ w) :
    (oavol x y z v xx yy zz none w nx ny).ret =
      .error (.nameError "ones") := by
  have hnw : ¬ w < 0 := Int.not_lt.mpr hw
  simp [oavol, hnw, ones_unbound]

theorem C1_oavol_pmap_none_nameerror_w :
    (oavol ⟨[1], [Val.num 0]⟩ ⟨[1], [Val.num 0]⟩ ⟨[1, 1], [Val.num 1]⟩
      ⟨[1, 1], [Val.num 2]⟩ ⟨[1], [Val.num 0]⟩ ⟨[1], [Val.num 0]⟩
      ⟨[1, 1], [Val.num 0]⟩ none 10 2 2).ret =
      .error (.nameError "ones") :=
  C1_oavol_pmap_none_nameerror ⟨[1], [Val.num 0]⟩ ⟨[1], [Val.num 0]⟩
    ⟨[1, 1], [Val.num 1]⟩ ⟨[1, 1], [Val.num 2]⟩ ⟨[1], [Val.num 0]⟩
    ⟨[1], [Val.num 0]⟩ ⟨[1, 1], [Val.num 0]⟩ 10 2 2 (by decide)

/-- C2: constructing any of the six instrument reader subclasses, with
any argument values, raises `NameError` before the object is usable,
because each `__init__` passes the unbound name `epoch` to
`super().__init__` instead of its `reftime` parameter. -/
theorem C2_subclass_init_epoch_nameerror :
    (∀ g dt rt sl se,
        aquarius_sss_init g dt rt sl se = .error (.nameError "epoch")) ∧
    (∀ g dt rt tl sl te se,
        argo_ctd_init g dt rt tl sl te se = .error (.nameError "epoch")) ∧
    (∀ g dt rt sm se,
        aviso_sla_map_init g dt rt sm se = .error (.nameError "epoch")) ∧
    (∀ g dt rt te tl,
        ostia_sst_map_init g dt rt te tl = .error (.nameError "epoch")) ∧
    (∀ g dt rt tl sl dl te se,
        seaglider_profile_init g dt rt tl sl dl te se =
          .error (.nameError "epoch")) ∧
    (∀ g dt rt tl sl ul vl dl te se ue ve,
        tao_mooring_init g dt rt tl sl ul vl dl te se ue ve =
          .error (.nameError "epoch")) :=
  ⟨fun _ _ _ _ _ => rfl, fun _ _ _ _ _ _ _ => rfl, fun _ _ _ _ _ => rfl,
   fun _ _ _ _ _ => rfl, fun _ _ _ _ _ _ _ _ => rfl,
   fun _ _ _ _ _ _ _ _ _ _ _ _ => rfl⟩

/-- C3 counterexample: the claim says every invalidly-configured call
fails fast with an error at the facade.  Here is a call with both
decorrelation scales zero — listed by the claim as an invalid
configuration — that raises nothing: it proceeds to the estimator with
`nx = ny = 0` and returns a result. -/
theorem C3_no_failfast_cex :
    exceptOk (oasurf ⟨[1], [Val.num 0]⟩ ⟨[1], [Val.num 0]⟩
      ⟨[1], [Val.num 7]⟩ ⟨[1], [Val.num 0]⟩ ⟨[1], [Val.num 0]⟩
      (some (Pmap.built [[(0, 0)]])) 10 0 0).ret = true ∧
    (oasurf ⟨[1], [Val.num 0]⟩ ⟨[1], [Val.num 0]⟩
      ⟨[1], [Val.num 7]⟩ ⟨[1], [Val.num 0]⟩ ⟨[1], [Val.num 0]⟩
      (some (Pmap.built [[(0, 0)]])) 10 0 0).nxUsed = 0 ∧
    (oasurf ⟨[1], [Val.num 0]⟩ ⟨[1], [Val.num 0]⟩
      ⟨[1], [Val.num 7]⟩ ⟨[1], [Val.num 0]⟩ ⟨[1], [Val.num 0]⟩
      (some (Pmap.built [[(0, 0)]])) 10 0 0).nyUsed = 0 :=
  ⟨by decide, by decide, by decide⟩

/-- C3 amended: neither facade raises a configuration error.  `oasurf`
with both decorrelation scales zero (or any array-length mismatch)
proceeds to the estimator and returns normally — with a supplied weight
map unconditionally, and with `pmap=None` for every non-negative
neighbour count (a negative one raises a `ValueError` incidental to the
`np.zeros` allocation, not a facade check).  `oavol` with a supplied
weight map and well-shaped arrays likewise proceeds and returns
normally even with both scales zero; `oavol` with `pmap=None` raises
`NameError` on the unbound name `ones` for every non-negative neighbour
count, regardless of whether the configuration is valid — so there, too,
no configuration check ever runs. -/
theorem C3_facade_no_validation (x y d xx yy z v zz : NDArray) (p : Pmap)
    (w : Int) (nx ny : ℚ) (Lz Lv L : Nat) (tz tv t : List Nat)
    (hxx : xx.data.length = xx.shape.prod)
    (hzs : z.shape = Lz :: tz) (hLz : Lz ≠ 0) (hdz : Lz ∣ z.data.length)
    (hvs : v.shape = Lv :: tv) (hLv : Lv ≠ 0) (hdv : Lv ∣ v.data.length)
    (hzzs : zz.shape = L :: t) (hL : L ≠ 0) (hdzz : L ∣ zz.data.length)
    (hzzwf : zz.data.length = zz.shape.prod) :
    exceptOk (oasurf x y d xx yy (some p) w nx ny).ret = true ∧
    (0 ≤ w → exceptOk (oasurf x y d xx yy none w nx ny).ret = true) ∧
    exceptOk (oavol x y z v xx yy zz (some p) w nx ny).ret = true ∧
    (0 ≤ w → (oavol x y z v xx yy zz none w nx ny).ret =
      .error (.nameError "ones")) := by
  have hfin : ∀ (r : (List Val × List Val) × Pmap) (dC : List Val) (a b : ℚ),
      r.1.1.length = xx.shape.prod →
        exceptOk (oa2dFinish xx.shape r dC a b).ret = true := by
    intro r dC a b hr
    simp [oa2dFinish, reshapeE, hr, exceptOk]
  refine ⟨?_, ?_, ?_, ?_⟩
  · simp only [oasurf]
    exact hfin _ _ _ _ (by rw [oa2d_vv_length, hxx])
  · intro h0
    have hnw : ¬ w < 0 := Int.not_lt.mpr h0
    simp only [oasurf, hnw, if_false]
    exact hfin _ _ _ _ (by rw [oa2d_vv_length, hxx])
  · have hoa : oavol x y z v xx yy zz (some p) w nx ny =
        oavolMain x y (fix_invalid_data z.data) z.shape v xx yy zz
          (norm_nx nx ny) (norm_ny nx ny) p := rfl
    have h1 : reshape2TE ⟨z.shape, fix_invalid_data z.data⟩ =
        .ok (reshape2T (fix_invalid_data z.data) Lz
          ((fix_invalid_data z.data).length / Lz)) :=
      reshape2TE_ok_of ⟨z.shape, fix_invalid_data z.data⟩ Lz tz hzs hLz
        (by rw [fix_invalid_length]; exact hdz)
    have h2 : reshape2TE v = .ok (reshape2T v.data Lv (v.data.length / Lv)) :=
      reshape2TE_ok_of v Lv tv hvs hLv hdv
    have h3 : reshape2TE zz = .ok (reshape2T zz.data L (zz.data.length / L)) :=
      reshape2TE_ok_of zz L t hzzs hL hdzz
    rw [hoa]
    simp only [oavolMain, h1, h2, h3]
    apply oavolFinish_ok
    rw [oa3d_transFlat_length x.data y.data _ _ xx.data yy.data zz.data L
      (norm_nx nx ny) (norm_ny nx ny) p hdzz]
    exact hzzwf
  · intro h0
    have hnw : ¬ w < 0 := Int.not_lt.mpr h0
    simp [oavol, hnw, ones_unbound]

theorem C3_facade_no_validation_w :
    exceptOk (oasurf ⟨[1], [Val.num 0]⟩ ⟨[1], [Val.num 0]⟩
      ⟨[1], [Val.num 5]⟩ ⟨[1], [Val.num 1]⟩ ⟨[1], [Val.num 1]⟩
      (some (Pmap.built [[(0, 1)]])) 10 0 0).ret = true ∧
    exceptOk (oasurf ⟨[1], [Val.num 0]⟩ ⟨[1], [Val.num 0]⟩
      ⟨[1], [Val.num 5]⟩ ⟨[1], [Val.num 1]⟩ ⟨[1], [Val.num 1]⟩
      none 10 0 0).ret = true ∧
    exceptOk (oavol ⟨[1], [Val.num 0]⟩ ⟨[1], [Val.num 0]⟩
      ⟨[1, 1], [Val.num 1]⟩ ⟨[1, 1], [Val.num 2]⟩ ⟨[1], [Val.num 1]⟩
      ⟨[1], [Val.num 1]⟩ ⟨[1, 1], [Val.num 0]⟩
      (some (Pmap.built [[(0, 1)]])) 10 0 0).ret = true ∧
    (oavol ⟨[1], [Val.num 0]⟩ ⟨[1], [Val.num 0]⟩ ⟨[1, 1], [Val.num 1]⟩
      ⟨[1, 1], [Val.num 2]⟩ ⟨[1], [Val.num 1]⟩ ⟨[1], [Val.num 1]⟩
      ⟨[1, 1], [Val.num 0]⟩ none 10 0 0).ret =
      .error (.nameError "ones") := by
  have h := C3_facade_no_validation ⟨[1], [Val.num 0]⟩ ⟨[1], [Val.num 0]⟩
    ⟨[1], [Val.num 5]⟩ ⟨[1], [Val.num 1]⟩ ⟨[1], [Val.num 1]⟩
    ⟨[1, 1], [Val.num 1]⟩ ⟨[1, 1], [Val.num 2]⟩ ⟨[1, 1], [Val.num 0]⟩
    (Pmap.built [[(0, 1)]]) 10 0 0 1 1 1 [1] [1] [1]
    (by decide) (by decide) (by decide) (by decide) (by decide) (by decide)
    (by decide) (by decide) (by decide) (by decide) (by decide)
  exact ⟨h.1, h.2.1 (by decide), h.2.2.1, h.2.2.2 (by decide)⟩

/-- C4 counterexample: the claim says the caller's source array is
observably unchanged after the call.  It is not: `fix_invalid` is called
with `copy=False`, so a NaN entry in the caller's value array is
overwritten in place with the fill value `-999999.0`. -/
theorem C4_inplace_mutation_cex :
    (oasurf ⟨[1], [Val.num 0]⟩ ⟨[1], [Val.num 0]⟩ ⟨[1], [Val.nan]⟩
      ⟨[1], [Val.num 0]⟩ ⟨[1], [Val.num 0]⟩
      (some (Pmap.built [[(0, 0)]])) 10 2 2).d_caller =
      [Val.num (-999999)] ∧
    Val.num (-999999) ≠ Val.nan :=
  ⟨by decide, by decide⟩

/-- C4 amended: the invalid-value normalization mutates the caller's
array in place exactly at its invalid entries; consequently the
caller's source values (`oasurf`) and source depths (`oavol`) are
observably unchanged precisely when every entry is finite. -/
theorem C4_pure_only_when_finite (x y d xx yy z v zz : NDArray)
    (pm pm2 : Option Pmap) (w w2 : Int) (nx ny nx2 ny2 : ℚ) :
    ((∀ a ∈ d.data, a.isInvalid = false) →
      (oasurf x y d xx yy pm w nx ny).d_caller = d.data) ∧
    ((∀ a ∈ z.data, a.isInvalid = false) →
      (oavol x y z v xx yy zz pm2 w2 nx2 ny2).z_caller = z.data) := by
  constructor
  · intro hd
    rw [oasurf_d_caller, fix_invalid_of_valid d.data hd]
  · intro hz
    rw [oavol_z_caller, fix_invalid_of_valid z.data hz]

theorem C4_pure_only_when_finite_w :
    (oasurf ⟨[1], [Val.num 0]⟩ ⟨[1], [Val.num 0]⟩ ⟨[1], [Val.num 4]⟩
      ⟨[1], [Val.num 0]⟩ ⟨[1], [Val.num 0]⟩
      (some (Pmap.built [[(0, 0)]])) 10 2 2).d_caller = [Val.num 4] ∧
    (oavol ⟨[1], [Val.num 0]⟩ ⟨[1], [Val.num 0]⟩ ⟨[1, 1], [Val.num 6]⟩
      ⟨[1, 1], [Val.num 2]⟩ ⟨[1], [Val.num 0]⟩ ⟨[1], [Val.num 0]⟩
      ⟨[1, 1], [Val.num 0]⟩ (some (Pmap.built [[(0, 0)]])) 10 2
      2).z_caller = [Val.num 6] :=
  ⟨(C4_pure_only_when_finite ⟨[1], [Val.num 0]⟩ ⟨[1], [Val.num 0]⟩
      ⟨[1], [Val.num 4]⟩ ⟨[1], [Val.num 0]⟩ ⟨[1], [Val.num 0]⟩
      ⟨[1, 1], [Val.num 6]⟩ ⟨[1, 1], [Val.num 2]⟩ ⟨[1, 1], [Val.num 0]⟩
      (some (Pmap.built [[(0, 0)]])) (some (Pmap.built [[(0, 0)]]))
      10 10 2 2 2 2).1 (by decide),
   (C4_pure_only_when_finite ⟨[1], [Val.num 0]⟩ ⟨[1], [Val.num 0]⟩
      ⟨[1], [Val.num 4]⟩ ⟨[1], [Val.num 0]⟩ ⟨[1], [Val.num 0]⟩
      ⟨[1, 1], [Val.num 6]⟩ ⟨[1, 1], [Val.num 2]⟩ ⟨[1, 1], [Val.num 0]⟩
      (some (Pmap.built [[(0, 0)]])) (some (Pmap.built [[(0, 0)]]))
      10 10 2 2 2 2).2 (by decide)⟩

/-- C5 counterexample: the claim says both the source depth array `z`
and the source value array `v` are normalized before being handed to
the per-level apply step.  Here is a call in which the value table
handed to `oa3d` still contains the raw NaN: only `z` passes through
`fix_invalid` in `oavol` (line 103); `v` is reshaped and passed as-is
(line 115). -/
theorem C5_v_not_normalized_cex :
    (oavol ⟨[1], [Val.num 0]⟩ ⟨[1], [Val.num 0]⟩ ⟨[1, 1], [Val.num 1]⟩
      ⟨[1, 1], [Val.nan]⟩ ⟨[1], [Val.num 0]⟩ ⟨[1], [Val.num 0]⟩
      ⟨[1, 1], [Val.num 0]⟩ (some (Pmap.built [[(0, 0)]])) 10 2 2).va =
      some [[Val.nan]] ∧
    Val.nan.isInvalid = true :=
  ⟨by decide, by decide⟩

/-- C5 amended: in the 3-D path only the source depth array is
normalized before the estimator runs: every entry of the depth table
handed to `oa3d` is valid (invalid depths having been replaced by the
fill value), while the source value array is handed over unnormalized —
any invalid entry of `v` survives, untouched, into the value table that
the per-level apply step receives. -/
theorem C5_only_z_normalized (x y z v xx yy zz : NDArray) (p : Pmap)
    (w : Int) (nx ny : ℚ) :
    (∀ m, (oavol x y z v xx yy zz (some p) w nx ny).za = some m →
      ∀ r ∈ m, ∀ e ∈ r, e.isInvalid = false) ∧
    (∀ m, (oavol x y z v xx yy zz (some p) w nx ny).va = some m →
      ∀ i, i < v.data.length →
        (v.data.getD i (Val.num 0)).isInvalid = true →
          ∃ r ∈ m, ∃ e ∈ r, e.isInvalid = true) := by
  have hoa : oavol x y z v xx yy zz (some p) w nx ny =
      oavolMain x y (fix_invalid_data z.data) z.shape v xx yy zz
        (norm_nx nx ny) (norm_ny nx ny) p := rfl
  constructor
  · intro m hm r hr e he
    rw [hoa] at hm
    obtain ⟨L, t, _, _, _, hmeq⟩ :=
      oavolMain_za _ _ _ _ _ _ _ _ _ _ _ m hm
    subst hmeq
    unfold reshape2T at hr
    obtain ⟨pidx, _, hreq⟩ := List.mem_map.mp hr
    subst hreq
    obtain ⟨l, _, heeq⟩ := List.mem_map.mp he
    subst heeq
    exact fix_invalid_getD _ _
  · intro m hm i hi hinv
    rw [hoa] at hm
    obtain ⟨L, t, hsh, hL0, hdvd, hmeq⟩ :=
      oavolMain_va _ _ _ _ _ _ _ _ _ _ _ m hm
    subst hmeq
    have hLP : L * (v.data.length / L) = v.data.length :=
      Nat.mul_div_cancel' hdvd
    have hPpos : 0 < v.data.length / L := by
      rcases Nat.eq_zero_or_pos (v.data.length / L) with h0 | hpos
      · rw [h0, Nat.mul_zero] at hLP
        omega
      · exact hpos
    have hplt : i % (v.data.length / L) < v.data.length / L :=
      Nat.mod_lt _ hPpos
    have hllt : i / (v.data.length / L) < L := by
      rw [Nat.div_lt_iff_lt_mul hPpos]
      rw [hLP]
      exact hi
    refine ⟨(List.range L).map
        (fun l => v.data.getD (l * (v.data.length / L) +
          i % (v.data.length / L)) (Val.num 0)), ?_, ?_⟩
    · unfold reshape2T
      exact List.mem_map_of_mem _ (List.mem_range.mpr hplt)
    · refine ⟨v.data.getD ((i / (v.data.length / L)) * (v.data.length / L) +
          i % (v.data.length / L)) (Val.num 0), ?_, ?_⟩
      · exact List.mem_map_of_mem _ (List.mem_range.mpr hllt)
      · have hidx : (i / (v.data.length / L)) * (v.data.length / L) +
            i % (v.data.length / L) = i := by
          rw [Nat.mul_comm]
          exact Nat.div_add_mod i (v.data.length / L)
        rw [hidx]
        exact hinv

theorem C5_only_z_normalized_w :
    (Val.num 1).isInvalid = false ∧ Val.nan.isInvalid = true := by
  constructor
  · exact (C5_only_z_normalized ⟨[1], [Val.num 0]⟩ ⟨[1], [Val.num 0]⟩
      ⟨[1, 1], [Val.num 1]⟩ ⟨[1, 1], [Val.nan]⟩ ⟨[1], [Val.num 0]⟩
      ⟨[1], [Val.num 0]⟩ ⟨[1, 1], [Val.num 0]⟩ (Pmap.built [[(0, 0)]])
      10 2 2).1 [[Val.num 1]] (by decide) [Val.num 1] (by decide)
      (Val.num 1) (by decide)
  · obtain ⟨r, hr, e, he, hinv⟩ :=
      (C5_only_z_normalized ⟨[1], [Val.num 0]⟩ ⟨[1], [Val.num 0]⟩
        ⟨[1, 1], [Val.num 1]⟩ ⟨[1, 1], [Val.nan]⟩ ⟨[1], [Val.num 0]⟩
        ⟨[1], [Val.num 0]⟩ ⟨[1, 1], [Val.num 0]⟩ (Pmap.built [[(0, 0)]])
        10 2 2).2 [[Val.nan]] (by decide) 0 (by decide) (by decide)
    have hr2 : r = [Val.nan] := by simpa using hr
    subst hr2
    have he2 : e = Val.nan := by simpa using he
    subst he2
    exact hinv

/-- C6: in every call to `oasurf` or `oavol` with non-negative scales at
least one of which is nonzero, a zero scale inherits the other axis's
value, and the scales actually used by the estimator satisfy
`nx > 0 ∧ ny > 0`. -/
theorem C6_scale_normalization (x y d xx yy z v zz : NDArray)
    (pm pm2 : Option Pmap) (w w2 : Int) (nx ny : ℚ)
    (hx : 0 ≤ nx) (hy : 0 ≤ ny) (hne : nx ≠ 0 ∨ ny ≠ 0) :
    (0 < (oasurf x y d xx yy pm w nx ny).nxUsed ∧
     0 < (oasurf x y d xx yy pm w nx ny).nyUsed ∧
     (nx = 0 → (oasurf x y d xx yy pm w nx ny).nxUsed = ny) ∧
     (ny = 0 → (oasurf x y d xx yy pm w nx ny).nyUsed =
        (oasurf x y d xx yy pm w nx ny).nxUsed)) ∧
    (0 < (oavol x y z v xx yy zz pm2 w2 nx ny).nxUsed ∧
     0 < (oavol x y z v xx yy zz pm2 w2 nx ny).nyUsed ∧
     (nx = 0 → (oavol x y z v xx yy zz pm2 w2 nx ny).nxUsed = ny) ∧
     (ny = 0 → (oavol x y z v xx yy zz pm2 w2 nx ny).nyUsed =
        (oavol x y z v xx yy zz pm2 w2 nx ny).nxUsed)) := by
  obtain ⟨hs1, hs2⟩ := oasurf_scales x y d xx yy pm w nx ny
  obtain ⟨hv1, hv2⟩ := oavol_scales x y z v xx yy zz pm2 w2 nx ny
  rw [hs1, hs2, hv1, hv2]
  have h1 : 0 < norm_nx nx ny := norm_nx_pos nx ny hx hy hne
  have h2 : 0 < norm_ny nx ny := norm_ny_pos nx ny hx hy hne
  have h3 : nx = 0 → norm_nx nx ny = ny := fun h => by simp [norm_nx, h]
  have h4 : ny = 0 → norm_ny nx ny = norm_nx nx ny := fun h => by
    simp [norm_ny, h]
  exact ⟨⟨h1, h2, h3, h4⟩, ⟨h1, h2, h3, h4⟩⟩

theorem C6_scale_normalization_w :
    0 < (oasurf ⟨[], []⟩ ⟨[], []⟩ ⟨[], []⟩ ⟨[], []⟩ ⟨[], []⟩
      (some (Pmap.built [])) 10 0 3).nxUsed ∧
    0 < (oavol ⟨[], []⟩ ⟨[], []⟩ ⟨[], []⟩ ⟨[], []⟩ ⟨[], []⟩ ⟨[], []⟩
      ⟨[], []⟩ (some (Pmap.built [])) 10 0 3).nyUsed :=
  ⟨(C6_scale_normalization ⟨[], []⟩ ⟨[], []⟩ ⟨[], []⟩ ⟨[], []⟩ ⟨[], []⟩
      ⟨[], []⟩ ⟨[], []⟩ ⟨[], []⟩ (some (Pmap.built []))
      (some (Pmap.built [])) 10 10 0 3 (by decide) (by decide)
      (Or.inr (by decide))).1.1,
   (C6_scale_normalization ⟨[], []⟩ ⟨[], []⟩ ⟨[], []⟩ ⟨[], []⟩ ⟨[], []⟩
      ⟨[], []⟩ ⟨[], []⟩ ⟨[], []⟩ (some (Pmap.built []))
      (some (Pmap.built [])) 10 10 0 3 (by decide) (by decide)
      (Or.inr (by decide))).2.2.1⟩

/-- C7: the estimate returned by `oasurf` always has exactly the shape
of the destination coordinate array `xx`, and the estimate returned by
`oavol` always has exactly the shape of the destination depth array
`zz`, regardless of the internal flattening. -/
theorem C7_shape_fidelity (x y d xx yy z v zz : NDArray)
    (pm pmv : Option Pmap) (w : Int) (nx ny : ℚ) :
    (∀ rr q, (oasurf x y d xx yy pm w nx ny).ret = .ok (rr, q) →
      rr.shape = xx.shape) ∧
    (∀ rr q, (oavol x y z v xx yy zz pmv w nx ny).ret = .ok (rr, q) →
      rr.shape = zz.shape) := by
  constructor
  · intro rr q h
    cases pm with
    | none =>
        by_cases hw : w < 0
        · simp [oasurf, hw] at h
        · simp only [oasurf, hw, if_false] at h
          exact oa2dFinish_ret_shape _ _ _ _ _ rr q h
    | some p =>
        simp only [oasurf] at h
        exact oa2dFinish_ret_shape _ _ _ _ _ rr q h
  · intro rr q h
    cases pmv with
    | none =>
        by_cases hw : w < 0
        · simp [oavol, hw] at h
        · simp [oavol, hw, ones_unbound] at h
    | some p =>
        simp only [oavol] at h
        exact oavolMain_ret_shape _ _ _ _ _ _ _ _ _ _ _ rr q h

theorem C7_shape_fidelity_w :
    (NDArray.mk [1] [Val.num (-999999)]).shape =
      (NDArray.mk [1] [Val.num 0]).shape ∧
    (NDArray.mk [1, 1] [Val.num (-999999)]).shape =
      (NDArray.mk [1, 1] [Val.num 0]).shape :=
  ⟨(C7_shape_fidelity ⟨[1], [Val.num 0]⟩ ⟨[1], [Val.num 0]⟩
      ⟨[1], [Val.nan]⟩ ⟨[1], [Val.num 0]⟩ ⟨[1], [Val.num 0]⟩
      ⟨[1, 1], [Val.num 1]⟩ ⟨[1, 1], [Val.nan]⟩ ⟨[1, 1], [Val.num 0]⟩
      (some (Pmap.built [[(0, 0)]])) (some (Pmap.built [[(0, 0)]]))
      10 2 2).1 ⟨[1], [Val.num (-999999)]⟩ (Pmap.built [[(0, 0)]])
      (by decide),
   (C7_shape_fidelity ⟨[1], [Val.num 0]⟩ ⟨[1], [Val.num 0]⟩
      ⟨[1], [Val.nan]⟩ ⟨[1], [Val.num 0]⟩ ⟨[1], [Val.num 0]⟩
      ⟨[1, 1], [Val.num 1]⟩ ⟨[1, 1], [Val.nan]⟩ ⟨[1, 1], [Val.num 0]⟩
      (some (Pmap.built [[(0, 0)]])) (some (Pmap.built [[(0, 0)]]))
      10 2 2).2 ⟨[1, 1], [Val.num (-999999)]⟩ (Pmap.built [[(0, 0)]])
      (by decide)⟩

/-- C8: two `oasurf` calls with identical source points, destination
points, neighbour count and decorrelation scales, and no supplied map,
return identical weight maps whatever value arrays are passed (and, the
engine being a pure function of its arguments, whatever the order of
the two calls). -/
theorem C8_weight_map_determinism (x y d1 d2 xx yy : NDArray) (w : Int)
    (nx ny : ℚ) :
    surfPmap (oasurf x y d1 xx yy none w nx ny) =
    surfPmap (oasurf x y d2 xx yy none w nx ny) := by
  by_cases hw : w < 0
  · simp [oasurf, hw, surfPmap]
  · simp only [oasurf, hw, if_false]
    rw [surfPmap_oa2dFinish, surfPmap_oa2dFinish, oa2d_vv_length,
      oa2d_vv_length]
    rw [oa2d_pmap_value_blind x.data y.data (fix_invalid_data d1.data)
      (fix_invalid_data d2.data) xx.data yy.data (norm_nx nx ny)
      (norm_ny nx ny) (Pmap.zeros xx.data.length w.toNat)]

/-- C9: when a weight map is supplied, the neighbour-count argument is
inert — the whole observable outcome of `oasurf` and `oavol` (returned
estimate and map, caller-visible buffer effects, scales used) is
identical for any two values of `weight`. -/
theorem C9_weight_arg_inert (x y d z v xx yy zz : NDArray) (p : Pmap)
    (w1 w2 : Int) (nx ny : ℚ) :
    oasurf x y d xx yy (some p) w1 nx ny =
      oasurf x y d xx yy (some p) w2 nx ny ∧
    oavol x y z v xx yy zz (some p) w1 nx ny =
      oavol x y z v xx yy zz (some p) w2 nx ny :=
  ⟨rfl, rfl⟩

/-- C10: `batch_files` attempts every input file; an exception in any
single file's conversion or write is caught inside the loop and turned
into a warning naming that file, and the remaining files are still
processed (the warning for the n-th file appears whatever happened to
the earlier files); every warning emitted names one of the input
files, and the loop — being a total function — never propagates a
per-file exception. -/
theorem C10_batch_catch_warn_continue
    (conv : String → Except PyErr (Option ObsRec))
    (wr : ObsRec → String → Except PyErr Unit) (outf : OutFiles)
    (fs : List String) :
    (∀ n (h : n < fs.length),
        exceptOk (batch_body conv wr outf n (fs.get ⟨n, h⟩)) = false →
          warnMsg (fs.get ⟨n, h⟩) ∈ batch_files conv wr outf fs) ∧
    (∀ s ∈ batch_files conv wr outf fs, ∃ f ∈ fs, s = warnMsg f) := by
  constructor
  · intro n h hfail
    have h0 : exceptOk (batch_body conv wr outf (0 + n)
        (fs.get ⟨n, h⟩)) = false := by
      rw [Nat.zero_add]
      exact hfail
    exact batch_go_warn conv wr outf fs 0 n h h0
  · intro s hs
    exact batch_go_warn_src conv wr outf fs 0 s hs

theorem C10_batch_catch_warn_continue_w :
    warnMsg "a.nc" ∈ batch_files (fun _ => .error (.valueError "boom"))
      (fun _ _ => .ok ()) (OutFiles.list ["out.nc"]) ["a.nc", "b.nc"] :=
  (C10_batch_catch_warn_continue (fun _ => .error (.valueError "boom"))
    (fun _ _ => .ok ()) (OutFiles.list ["out.nc"]) ["a.nc", "b.nc"]).1 0
    (by decide) (by decide)
